import Mathlib

/-
Verification development for the phased-array physics core of the
Mixer-Beamforming repository (src/js/PhasedArray.js).

The JavaScript code computes over IEEE floats; the shallow embedding below
works over the real numbers, with the same formulas, branch structure and
clamping logic as the source.  JS number fields that may be absent are
Option-valued; the JS value Infinity for focalDistance is Option.none.
Element counts are natural numbers.
-/

namespace PhasedArrayModel

open Real

/-- Geometry kind of an array: the source stores the strings linear / curved. -/
inductive Geometry
  | linear
  | curved
deriving DecidableEq

noncomputable section

/-- Configuration state of a PhasedArray: the underscore-prefixed fields of the
JS class (name and id omitted: no physics depends on them).  focalDistance is
none when the stored JS value is Infinity. -/
structure Config where
  numElements : ℕ
  pitch : ℝ
  frequency : ℝ
  steeringAngle : ℝ
  posX : ℝ
  posY : ℝ
  geometry : Geometry
  curvatureRadius : ℝ
  orientation : ℝ
  focalDistance : Option ℝ
  amplitude : ℝ
  enabled : Bool
  speedOfSound : ℝ

/-- wavelength = speedOfSound / frequency, from _recalculate. -/
def wavelength (c : Config) : ℝ := c.speedOfSound / c.frequency

/-- Embedding of _calculateElementPositions: world positions of the n elements.  The curved
branch divides by (n - 1 || 1), embedded as the if on n - 1 = 0; the
normalAngle field pushed by the source is consumed by no modelled operation and
is omitted from the element record. -/
def elementPositions (c : Config) : List (ℝ × ℝ) :=
  let n := c.numElements
  let orientationRad := c.orientation * π / 180
  match c.geometry with
  | Geometry.linear =>
      let totalWidth := ((n : ℝ) - 1) * c.pitch
      let startOffset := -totalWidth / 2
      (List.range n).map fun (i : ℕ) =>
        let localX := startOffset + (i : ℝ) * c.pitch
        let localY : ℝ := 0
        (c.posX + localX * Real.cos orientationRad - localY * Real.sin orientationRad,
         c.posY + localX * Real.sin orientationRad + localY * Real.cos orientationRad)
  | Geometry.curved =>
      let radius := c.curvatureRadius
      let arcLength := ((n : ℝ) - 1) * c.pitch
      let totalAngle := arcLength / radius
      let startAngle := -totalAngle / 2
      (List.range n).map fun (i : ℕ) =>
        let denom : ℝ := if n - 1 = 0 then 1 else ((n : ℝ) - 1)
        let elementAngle := startAngle + ((i : ℝ) / denom) * totalAngle
        let localX := radius * Real.sin elementAngle
        let localY := radius * (1 - Real.cos elementAngle)
        (c.posX + localX * Real.cos orientationRad - localY * Real.sin orientationRad,
         c.posY + localX * Real.sin orientationRad + localY * Real.cos orientationRad)

/-- Embedding of _calculatePhaseDelays: per-element phase offsets.  The source accumulates
into phase starting from 0 with one subtraction, hence the -(k * ...) form.
The near-field branch is taken exactly when the stored focalDistance is
finite. -/
def phaseDelays (c : Config) : List ℝ :=
  let steeringRad := c.steeringAngle * π / 180
  let orientationRad := c.orientation * π / 180
  let k := 2 * π / wavelength c
  let sinDir := Real.sin (steeringRad + orientationRad)
  let cosDir := Real.cos (steeringRad + orientationRad)
  match c.focalDistance with
  | some F =>
      let focalX := c.posX + F * sinDir
      let focalY := c.posY + F * cosDir
      (elementPositions c).map fun e =>
        let distToFocus := Real.sqrt ((focalX - e.1) ^ 2 + (focalY - e.2) ^ 2)
        0 - k * (distToFocus - F)
  | none =>
      (elementPositions c).map fun e =>
        let offsetX := e.1 - c.posX
        let offsetY := e.2 - c.posY
        0 - k * (offsetX * sinDir + offsetY * cosDir)

/-- One entry of the getElementData output. -/
structure ElementData where
  x : ℝ
  y : ℝ
  phase : ℝ
  amplitude : ℝ

/-- getElementData seen as a pure function of the configuration: the value the
method returns once _ensureCalculated has run (the stateful wrapper is
getElementData on ArrayState below). -/
def elementData (c : Config) : List ElementData :=
  if c.enabled then
    List.zipWith (fun p φ => ⟨p.1, p.2, φ, c.amplitude⟩)
      (elementPositions c) (phaseDelays c)
  else []

/-- calculateBeamPattern: normalized far-field intensity at an observation
angle (degrees).  Note that the enabled flag is never read here. -/
def calculateBeamPattern (c : Config) (angle : ℝ) : ℝ :=
  let angleRad := angle * π / 180
  let k := 2 * π / wavelength c
  let contribs := List.zipWith
    (fun p φ =>
      let pathLength := p.1 * Real.sin angleRad + p.2 * Real.cos angleRad
      let totalPhase := k * pathLength + φ
      (c.amplitude * Real.cos totalPhase, c.amplitude * Real.sin totalPhase))
    (elementPositions c) (phaseDelays c)
  let realSum := (contribs.map Prod.fst).sum
  let imagSum := (contribs.map Prod.snd).sum
  let maxIntensity := (c.numElements : ℝ) * (c.numElements : ℝ) * c.amplitude * c.amplitude
  (realSum * realSum + imagSum * imagSum) / maxIntensity

/-- calculateFieldAt: superposed wave amplitude at a query point and time.
Disabled arrays return 0; an element closer to the query point than 0.0001 is
skipped (its term is 0); the remaining terms use the regularized spreading
amplitude / sqrt(dist + 0.01). -/
def calculateFieldAt (c : Config) (x y t : ℝ) : ℝ :=
  if c.enabled then
    let k := 2 * π / wavelength c
    let omega := 2 * π * c.frequency
    (List.zipWith
      (fun p φ =>
        let dist := Real.sqrt ((x - p.1) ^ 2 + (y - p.2) ^ 2)
        if dist < 0.0001 then 0
        else
          let amp := c.amplitude / Real.sqrt (dist + 0.01)
          amp * Real.cos (k * dist - omega * t + φ))
      (elementPositions c) (phaseDelays c)).sum
  else 0

/-- The configuration record handed to the constructor and produced by toJSON:
every field optional (JS undefined is none).  focalDistance is doubly
optional: the inner none is the JS value Infinity. -/
structure ConfigRecord where
  numElements : Option ℕ := none
  pitch : Option ℝ := none
  frequency : Option ℝ := none
  steeringAngle : Option ℝ := none
  position : Option (ℝ × ℝ) := none
  geometry : Option Geometry := none
  curvatureRadius : Option ℝ := none
  orientation : Option ℝ := none
  focalDistance : Option (Option ℝ) := none
  amplitude : Option ℝ := none
  enabled : Option Bool := none
  speedOfSound : Option ℝ := none

/-- The JS idiom (config.field || default) on a number field: an absent field
and the falsy number 0 both give the default. -/
def orDefault (v : Option ℝ) (d : ℝ) : ℝ :=
  match v with
  | none => d
  | some x => if x = 0 then d else x

/-- Same idiom for a natural-number count field. -/
def orDefaultNat (v : Option ℕ) (d : ℕ) : ℕ :=
  match v with
  | none => d
  | some x => if x = 0 then d else x

/-- The PhasedArray constructor body (field initialisation part).  Faithful to
the source: every numeric field goes through the falsy-default idiom, and
_enabled is hard-coded to true, ignoring config.enabled entirely. -/
def mkConfig (r : ConfigRecord) : Config where
  numElements := orDefaultNat r.numElements 16
  pitch := orDefault r.pitch 0.005
  frequency := orDefault r.frequency 40000
  steeringAngle := orDefault r.steeringAngle 0
  posX := (r.position.getD (0, -0.1)).1
  posY := (r.position.getD (0, -0.1)).2
  geometry := r.geometry.getD Geometry.linear
  curvatureRadius := orDefault r.curvatureRadius 0.1
  orientation := orDefault r.orientation 0
  focalDistance :=
    match r.focalDistance with
    | none => none
    | some none => none
    | some (some x) => if x = 0 then none else some x
  amplitude := orDefault r.amplitude 1
  enabled := true
  speedOfSound := orDefault r.speedOfSound 343

/-- toJSON: serialize every configuration attribute (name omitted as in
Config). -/
def toJSON (c : Config) : ConfigRecord where
  numElements := some c.numElements
  pitch := some c.pitch
  frequency := some c.frequency
  steeringAngle := some c.steeringAngle
  position := some (c.posX, c.posY)
  geometry := some c.geometry
  curvatureRadius := some c.curvatureRadius
  orientation := some c.orientation
  focalDistance := some c.focalDistance
  amplitude := some c.amplitude
  enabled := some c.enabled
  speedOfSound := some c.speedOfSound

/-- Mutable state of a PhasedArray entity: configuration plus the derived
caches and the staleness flag. -/
structure ArrayState where
  cfg : Config
  positionsCache : List (ℝ × ℝ)
  phasesCache : List ℝ
  wavelengthCache : ℝ
  dirty : Bool

/-- Embedding of _recalculate: refresh every cache from the configuration and clear the
staleness flag. -/
def recalculate (s : ArrayState) : ArrayState :=
  { s with
    wavelengthCache := wavelength s.cfg
    positionsCache := elementPositions s.cfg
    phasesCache := phaseDelays s.cfg
    dirty := false }

/-- Embedding of _ensureCalculated: recompute only when stale. -/
def ensureCalculated (s : ArrayState) : ArrayState :=
  if s.dirty then recalculate s else s

/-- new PhasedArray(config): initialise fields, mark dirty, then run the
initial _recalculate.  The static fromJSON delegates to this constructor. -/
def mkPhasedArray (r : ConfigRecord) : ArrayState :=
  recalculate
    { cfg := mkConfig r
      positionsCache := []
      phasesCache := []
      wavelengthCache := 0
      dirty := true }

/-- Math.round of JS: round half toward positive infinity. -/
def jsRound (v : ℝ) : ℤ := ⌊v + 1 / 2⌋

/-- Truncation toward zero, the integer part used by the JS remainder
operator. -/
def jsTrunc (x : ℝ) : ℤ := if 0 ≤ x then ⌊x⌋ else ⌈x⌉

/-- The JS remainder operator a % b on finite numbers: the result carries the
sign of the dividend. -/
def jsRem (a b : ℝ) : ℝ := a - b * (jsTrunc (a / b) : ℝ)

/-- set numElements: clamp round(v) into [1, 64]; mark stale. -/
def setNumElements (s : ArrayState) (v : ℝ) : ArrayState :=
  { s with cfg := { s.cfg with numElements := (max 1 (min 64 (jsRound v))).toNat }
           dirty := true }

/-- set pitch: clamp below by 0.001; mark stale. -/
def setPitch (s : ArrayState) (v : ℝ) : ArrayState :=
  { s with cfg := { s.cfg with pitch := max 0.001 v }, dirty := true }

/-- set frequency: clamp below by 0.1; mark stale. -/
def setFrequency (s : ArrayState) (v : ℝ) : ArrayState :=
  { s with cfg := { s.cfg with frequency := max 0.1 v }, dirty := true }

/-- set steeringAngle: clamp into [-90, 90]; mark stale. -/
def setSteeringAngle (s : ArrayState) (v : ℝ) : ArrayState :=
  { s with cfg := { s.cfg with steeringAngle := max (-90) (min 90 v) }, dirty := true }

/-- set position: store the point; mark stale.  The source writes
value.x || 0, which on a present real input is the identity. -/
def setPosition (s : ArrayState) (p : ℝ × ℝ) : ArrayState :=
  { s with cfg := { s.cfg with posX := p.1, posY := p.2 }, dirty := true }

/-- set geometry: anything other than curved becomes linear; mark stale. -/
def setGeometry (s : ArrayState) (g : Geometry) : ArrayState :=
  { s with cfg := { s.cfg with geometry :=
      if g = Geometry.curved then Geometry.curved else Geometry.linear }
           dirty := true }

/-- set curvatureRadius: clamp below by 0.01; mark stale. -/
def setCurvatureRadius (s : ArrayState) (v : ℝ) : ArrayState :=
  { s with cfg := { s.cfg with curvatureRadius := max 0.01 v }, dirty := true }

/-- set orientation: JS remainder by 360; mark stale. -/
def setOrientation (s : ArrayState) (v : ℝ) : ArrayState :=
  { s with cfg := { s.cfg with orientation := jsRem v 360 }, dirty := true }

/-- set focalDistance: nonpositive values are coerced to Infinity; mark
stale. -/
def setFocalDistance (s : ArrayState) (v : ℝ) : ArrayState :=
  { s with cfg := { s.cfg with focalDistance := if v ≤ 0 then none else some v }
           dirty := true }

/-- set amplitude: clamp into [0, 2].  The source does NOT touch _dirty
here. -/
def setAmplitude (s : ArrayState) (v : ℝ) : ArrayState :=
  { s with cfg := { s.cfg with amplitude := max 0 (min 2 v) } }

/-- set enabled: coerce to Bool.  The source does NOT touch _dirty here. -/
def setEnabled (s : ArrayState) (b : Bool) : ArrayState :=
  { s with cfg := { s.cfg with enabled := b } }

/-- set speedOfSound: clamp below by 0.1; mark stale. -/
def setSpeedOfSound (s : ArrayState) (v : ℝ) : ArrayState :=
  { s with cfg := { s.cfg with speedOfSound := max 0.1 v }, dirty := true }

/-- getElementData on the entity state: ensure caches are fresh, then read
them; a disabled array yields the empty sequence. -/
def getElementData (s : ArrayState) : List ElementData :=
  let t := ensureCalculated s
  if t.cfg.enabled then
    List.zipWith (fun p φ => ⟨p.1, p.2, φ, t.cfg.amplitude⟩)
      t.positionsCache t.phasesCache
  else []

/-- States reachable through the public surface: construction, the setters,
and queries (which run _ensureCalculated). -/
inductive Reachable : ArrayState → Prop where
  | construct (r : ConfigRecord) : Reachable (mkPhasedArray r)
  | numElements (s : ArrayState) (v : ℝ) : Reachable s → Reachable (setNumElements s v)
  | pitch (s : ArrayState) (v : ℝ) : Reachable s → Reachable (setPitch s v)
  | frequency (s : ArrayState) (v : ℝ) : Reachable s → Reachable (setFrequency s v)
  | steeringAngle (s : ArrayState) (v : ℝ) : Reachable s → Reachable (setSteeringAngle s v)
  | position (s : ArrayState) (p : ℝ × ℝ) : Reachable s → Reachable (setPosition s p)
  | geometry (s : ArrayState) (g : Geometry) : Reachable s → Reachable (setGeometry s g)
  | curvatureRadius (s : ArrayState) (v : ℝ) : Reachable s → Reachable (setCurvatureRadius s v)
  | orientation (s : ArrayState) (v : ℝ) : Reachable s → Reachable (setOrientation s v)
  | focalDistance (s : ArrayState) (v : ℝ) : Reachable s → Reachable (setFocalDistance s v)
  | amplitude (s : ArrayState) (v : ℝ) : Reachable s → Reachable (setAmplitude s v)
  | enabledSet (s : ArrayState) (b : Bool) : Reachable s → Reachable (setEnabled s b)
  | speedOfSound (s : ArrayState) (v : ℝ) : Reachable s → Reachable (setSpeedOfSound s v)
  | query (s : ArrayState) : Reachable s → Reachable (ensureCalculated s)

/-- Cache invariant: a non-stale state has caches equal to the pure
recomputation from its configuration. -/
def CacheConsistent (s : ArrayState) : Prop :=
  s.dirty = false →
    s.positionsCache = elementPositions s.cfg ∧ s.phasesCache = phaseDelays s.cfg

/-- The setters leave the derived caches untouched (no immediate recompute). -/
def cacheUntouched (s u : ArrayState) : Prop :=
  u.positionsCache = s.positionsCache ∧ u.phasesCache = s.phasesCache ∧
    u.wavelengthCache = s.wavelengthCache

/-- The §4.2 phase formulas of the specification, written from its words: wave
number k = 2 pi / wavelength, direction (sin, cos) of the summed angle
steeringAngle + orientation (degrees), far-field projection phases when the
focal distance is infinite, and near-field focal phases -k (|Fp - e| - F)
otherwise. -/
def specPhaseDelays (c : Config) : List ℝ :=
  let k := 2 * π / (c.speedOfSound / c.frequency)
  let sinDir := Real.sin ((c.steeringAngle + c.orientation) * π / 180)
  let cosDir := Real.cos ((c.steeringAngle + c.orientation) * π / 180)
  match c.focalDistance with
  | none =>
      (elementPositions c).map fun e =>
        (-k) * ((e.1 - c.posX) * sinDir + (e.2 - c.posY) * cosDir)
  | some F =>
      let fp := (c.posX + F * sinDir, c.posY + F * cosDir)
      (elementPositions c).map fun e =>
        (-k) * (Real.sqrt ((fp.1 - e.1) ^ 2 + (fp.2 - e.2) ^ 2) - F)

/-- The all-defaults configuration record (new PhasedArray({})). -/
def emptyRecord : ConfigRecord := {}

/-- The claimed beam-pattern peak instance: 11 elements at half-wavelength
pitch, steering 30 degrees, defaults elsewhere. -/
def elevenElementConfig : Config :=
  { numElements := 11
    pitch := 0.5 * (343 / 40000)
    frequency := 40000
    steeringAngle := 30
    posX := 0
    posY := -0.1
    geometry := Geometry.linear
    curvatureRadius := 0.1
    orientation := 0
    focalDistance := none
    amplitude := 1
    enabled := true
    speedOfSound := 343 }

end

-- ==================== THEOREMS ====================

/-- The element-position list always has exactly numElements entries. -/
theorem elementPositions_length (c : Config) :
    (elementPositions c).length = c.numElements := by
  unfold elementPositions
  cases c.geometry <;> simp

/-- The phase list always has exactly numElements entries. -/
theorem phaseDelays_length (c : Config) :
    (phaseDelays c).length = c.numElements := by
  unfold phaseDelays
  cases c.focalDistance <;> simp [elementPositions_length]

/-- C8: the constructor replaces every falsy configuration field with its
default rather than using the supplied value: the enabled field of the record
is ignored entirely (the stored flag is hard-coded to true, so a record with
enabled = false constructs an enabled array), and amplitude 0 becomes 1.0;
hence a record produced by toJSON from a disabled or zero-amplitude array is
not honored by the constructor (to which the static fromJSON delegates). -/
theorem constructor_falsy_defaults :
    (∀ r : ConfigRecord, (mkConfig r).enabled = true)
    ∧ (mkConfig { emptyRecord with enabled := some false }).enabled = true
    ∧ (mkConfig { emptyRecord with amplitude := some 0 }).amplitude = 1
    ∧ (mkConfig (toJSON { mkConfig emptyRecord with enabled := false })).enabled = true
    ∧ (mkConfig (toJSON { mkConfig emptyRecord with amplitude := 0 })).amplitude = 1 := by
  refine ⟨fun r => rfl, rfl, ?_, rfl, ?_⟩
  · simp [mkConfig, emptyRecord, orDefault]
  · simp [mkConfig, emptyRecord, toJSON, orDefault]

/-- C9: calculateBeamPattern does not consult the enabled flag (the same
intensity results whether the array is enabled or not), unlike elementData,
which is empty for a disabled array, and calculateFieldAt, which returns 0. -/
theorem beamPattern_ignores_enabled :
    (∀ (c : Config) (b : Bool) (a : ℝ),
      calculateBeamPattern { c with enabled := b } a = calculateBeamPattern c a)
    ∧ (∀ c : Config, elementData { c with enabled := false } = [])
    ∧ (∀ (c : Config) (x y t : ℝ),
      calculateFieldAt { c with enabled := false } x y t = 0) := by
  refine ⟨fun c b a => rfl, fun c => by simp [elementData], fun c x y t => by
    simp [calculateFieldAt]⟩

/-- C10: the orientation setter uses the JS remainder operator, so a negative
input v with -360 < v < 0 is stored as v itself, and every stored orientation
lies in the open interval (-360, 360). -/
theorem setOrientation_uses_js_remainder :
    (∀ (s : ArrayState) (v : ℝ), -360 < v → v < 0 →
      (setOrientation s v).cfg.orientation = v)
    ∧ (∀ (s : ArrayState) (v : ℝ),
      -360 < (setOrientation s v).cfg.orientation ∧
        (setOrientation s v).cfg.orientation < 360) := by
  have hstore : ∀ (s : ArrayState) (v : ℝ),
      (setOrientation s v).cfg.orientation = jsRem v 360 := fun s v => rfl
  constructor
  · intro s v hlo hhi
    rw [hstore]
    have hneg : v / 360 < 0 := div_neg_of_neg_of_pos hhi (by norm_num)
    have hceil : ⌈v / 360⌉ = 0 := by
      rw [Int.ceil_eq_zero_iff]
      refine Set.mem_Ioc.mpr ⟨?_, le_of_lt hneg⟩
      rw [lt_div_iff₀ (show (0:ℝ) < 360 by norm_num)]
      linarith
    unfold jsRem jsTrunc
    rw [if_neg (not_le.mpr hneg), hceil]
    simp
  · intro s v
    rw [hstore s v]
    have hv : v / 360 * 360 = v := div_mul_cancel₀ v (by norm_num)
    unfold jsRem jsTrunc
    by_cases hx : 0 ≤ v / 360
    · rw [if_pos hx]
      have h1 : (⌊v / 360⌋ : ℝ) ≤ v / 360 := Int.floor_le _
      have h2 : v / 360 < ⌊v / 360⌋ + 1 := Int.lt_floor_add_one _
      constructor <;> nlinarith
    · rw [if_neg hx]
      have h1 : v / 360 ≤ (⌈v / 360⌉ : ℝ) := Int.le_ceil _
      have h2 : (⌈v / 360⌉ : ℝ) < v / 360 + 1 := Int.ceil_lt_add_one _
      constructor <;> nlinarith

/-- Witness for C10: setting orientation to -10 on a freshly constructed
array stores -10 itself (not 350). -/
theorem setOrientation_uses_js_remainder_witness :
    ((-360 : ℝ) < -10 ∧ (-10 : ℝ) < 0)
    ∧ (setOrientation (mkPhasedArray emptyRecord) (-10)).cfg.orientation = -10 :=
  ⟨⟨by norm_num, by norm_num⟩,
    setOrientation_uses_js_remainder.1 (mkPhasedArray emptyRecord) (-10)
      (by norm_num) (by norm_num)⟩

/-- C4 counterexample: the amplitude setter does not mark the entity stale.
On a freshly constructed (hence non-stale) array, setting the amplitude
leaves the dirty flag false, contradicting the claim that every
configuration setter marks the entity stale. -/
theorem setAmplitude_leaves_clean :
    (setAmplitude (mkPhasedArray emptyRecord) 0.5).dirty = false := rfl

/-- C4 amended: the setters for numElements, pitch, frequency, steeringAngle,
position, geometry, curvatureRadius, orientation, focalDistance and
speedOfSound each apply their clamp/wrap/coercion, mark the entity stale and
perform no immediate recompute (caches untouched); the amplitude and enabled
setters apply their coercion and leave both the staleness flag and the caches
unchanged. -/
theorem setters_staleness_behavior (s : ArrayState) (v : ℝ) (p : ℝ × ℝ)
    (g : Geometry) (b : Bool) :
    ((setNumElements s v).dirty = true ∧ cacheUntouched s (setNumElements s v))
    ∧ ((setPitch s v).dirty = true ∧ cacheUntouched s (setPitch s v))
    ∧ ((setFrequency s v).dirty = true ∧ cacheUntouched s (setFrequency s v))
    ∧ ((setSteeringAngle s v).dirty = true ∧ cacheUntouched s (setSteeringAngle s v))
    ∧ ((setPosition s p).dirty = true ∧ cacheUntouched s (setPosition s p))
    ∧ ((setGeometry s g).dirty = true ∧ cacheUntouched s (setGeometry s g))
    ∧ ((setCurvatureRadius s v).dirty = true ∧ cacheUntouched s (setCurvatureRadius s v))
    ∧ ((setOrientation s v).dirty = true ∧ cacheUntouched s (setOrientation s v))
    ∧ ((setFocalDistance s v).dirty = true ∧ cacheUntouched s (setFocalDistance s v))
    ∧ ((setSpeedOfSound s v).dirty = true ∧ cacheUntouched s (setSpeedOfSound s v))
    ∧ ((setAmplitude s v).dirty = s.dirty ∧ cacheUntouched s (setAmplitude s v))
    ∧ ((setEnabled s b).dirty = s.dirty ∧ cacheUntouched s (setEnabled s b)) :=
  ⟨⟨rfl, rfl, rfl, rfl⟩, ⟨rfl, rfl, rfl, rfl⟩, ⟨rfl, rfl, rfl, rfl⟩,
   ⟨rfl, rfl, rfl, rfl⟩, ⟨rfl, rfl, rfl, rfl⟩, ⟨rfl, rfl, rfl, rfl⟩,
   ⟨rfl, rfl, rfl, rfl⟩, ⟨rfl, rfl, rfl, rfl⟩, ⟨rfl, rfl, rfl, rfl⟩,
   ⟨rfl, rfl, rfl, rfl⟩, ⟨rfl, rfl, rfl, rfl⟩, ⟨rfl, rfl, rfl, rfl⟩⟩

/-- C7: for a curved-geometry array with a single element, the geometry
computation performs no division by the element-count fraction (the guard
turns the divisor into 1) and the element sits exactly at the array position,
for every positive curvatureRadius, every pitch and every orientation. -/
theorem curved_single_element (px py d f sa ori R : ℝ) (fd : Option ℝ)
    (amp : ℝ) (en : Bool) (sos : ℝ) (hR : 0 < R) :
    elementPositions
      { numElements := 1, pitch := d, frequency := f, steeringAngle := sa,
        posX := px, posY := py, geometry := Geometry.curved,
        curvatureRadius := R, orientation := ori, focalDistance := fd,
        amplitude := amp, enabled := en, speedOfSound := sos } = [(px, py)] := by
  unfold elementPositions
  simp [Real.sin_zero, Real.cos_zero]

/-- Witness for C7: a concrete curved single-element array collapses to its
position. -/
theorem curved_single_element_witness :
    (0 : ℝ) < 0.1
    ∧ elementPositions
      { numElements := 1, pitch := 0.005, frequency := 40000,
        steeringAngle := 0, posX := 2, posY := 3,
        geometry := Geometry.curved, curvatureRadius := 0.1, orientation := 45,
        focalDistance := none, amplitude := 1, enabled := true,
        speedOfSound := 343 } = [(2, 3)] :=
  ⟨by norm_num,
    curved_single_element 2 3 0.005 40000 0 45 0.1 none 1 true 343 (by norm_num)⟩

/-- Replacing amplitude leaves the computed element positions unchanged. -/
theorem elementPositions_set_amplitude (c : Config) (a : ℝ) :
    elementPositions { c with amplitude := a } = elementPositions c := rfl

/-- Replacing amplitude leaves the computed phases unchanged. -/
theorem phaseDelays_set_amplitude (c : Config) (a : ℝ) :
    phaseDelays { c with amplitude := a } = phaseDelays c := rfl

/-- Replacing enabled leaves the computed element positions unchanged. -/
theorem elementPositions_set_enabled (c : Config) (b : Bool) :
    elementPositions { c with enabled := b } = elementPositions c := rfl

/-- Replacing enabled leaves the computed phases unchanged. -/
theorem phaseDelays_set_enabled (c : Config) (b : Bool) :
    phaseDelays { c with enabled := b } = phaseDelays c := rfl

/-- Every reachable entity state satisfies the cache invariant: when the
staleness flag is clear, the caches agree with recomputation from the current
configuration. -/
theorem reachable_cacheConsistent (s : ArrayState) (h : Reachable s) :
    CacheConsistent s := by
  induction h with
  | construct r => exact fun _ => ⟨rfl, rfl⟩
  | numElements s v _ _ => exact fun hd => Bool.noConfusion hd
  | pitch s v _ _ => exact fun hd => Bool.noConfusion hd
  | frequency s v _ _ => exact fun hd => Bool.noConfusion hd
  | steeringAngle s v _ _ => exact fun hd => Bool.noConfusion hd
  | position s p _ _ => exact fun hd => Bool.noConfusion hd
  | geometry s g _ _ => exact fun hd => Bool.noConfusion hd
  | curvatureRadius s v _ _ => exact fun hd => Bool.noConfusion hd
  | orientation s v _ _ => exact fun hd => Bool.noConfusion hd
  | focalDistance s v _ _ => exact fun hd => Bool.noConfusion hd
  | amplitude s v _ ih => exact fun hd => ih hd
  | enabledSet s b _ ih => exact fun hd => ih hd
  | speedOfSound s v _ _ => exact fun hd => Bool.noConfusion hd
  | query s _ ih =>
      unfold ensureCalculated
      by_cases hd : s.dirty = true
      · rw [if_pos hd]
        exact fun _ => ⟨rfl, rfl⟩
      · rw [if_neg hd]
        exact ih

/-- C5: for every reachable entity state, getElementData returns exactly
numElements entries when the array is enabled and exactly 0 entries when it
is not, whether or not the state is stale. -/
theorem getElementData_count (s : ArrayState) (h : Reachable s) :
    (getElementData s).length = if s.cfg.enabled then s.cfg.numElements else 0 := by
  have hc := reachable_cacheConsistent s h
  unfold getElementData ensureCalculated
  by_cases hd : s.dirty = true
  · rw [if_pos hd]
    by_cases he : s.cfg.enabled = true
    · simp [recalculate, he, List.length_zipWith, elementPositions_length,
        phaseDelays_length]
    · have he2 : s.cfg.enabled = false := by revert he; cases s.cfg.enabled <;> simp
      simp [recalculate, he2]
  · have hd2 : s.dirty = false := by revert hd; cases s.dirty <;> simp
    rw [if_neg hd]
    obtain ⟨h1, h2⟩ := hc hd2
    by_cases he : s.cfg.enabled = true
    · simp [he, h1, h2, List.length_zipWith, elementPositions_length,
        phaseDelays_length]
    · have he2 : s.cfg.enabled = false := by revert he; cases s.cfg.enabled <;> simp
      simp [he2]

/-- Witness for C5: a freshly constructed default array is reachable, is
enabled and reports 16 element records. -/
theorem getElementData_count_witness :
    Reachable (mkPhasedArray emptyRecord)
    ∧ (getElementData (mkPhasedArray emptyRecord)).length = 16 := by
  refine ⟨Reachable.construct emptyRecord, ?_⟩
  have h := getElementData_count (mkPhasedArray emptyRecord)
    (Reachable.construct emptyRecord)
  simpa [mkPhasedArray, recalculate, mkConfig, emptyRecord, orDefaultNat] using h

/-- C3: the computed per-element phase offsets agree, for every
configuration, with the reference formulas of the specification: far-field
projection phases when focalDistance is infinite, near-field focal phases
when it is finite, the two modes selected exclusively by finiteness. -/
theorem phaseDelays_match_spec (c : Config) :
    phaseDelays c = specPhaseDelays c := by
  have hang : c.steeringAngle * π / 180 + c.orientation * π / 180
      = (c.steeringAngle + c.orientation) * π / 180 := by ring
  simp only [phaseDelays, specPhaseDelays, wavelength]
  rcases hf : c.focalDistance with _ | F
  · refine List.map_congr_left fun e _ => ?_
    rw [hang]
    ring
  · refine List.map_congr_left fun e _ => ?_
    rw [hang]
    ring

/-- Summing over a list a bound that holds for every entry bounds the sum by
length times the bound. -/
theorem list_abs_sum_le (l : List ℝ) (B : ℝ) (h : ∀ x ∈ l, |x| ≤ B) :
    |l.sum| ≤ l.length * B := by
  induction l with
  | nil => simp
  | cons a l ih =>
      have ha := h a (List.mem_cons_self a l)
      have hl := ih fun x hx => h x (List.mem_cons_of_mem a hx)
      calc |(a :: l).sum| = |a + l.sum| := by simp
        _ ≤ |a| + |l.sum| := abs_add _ _
        _ ≤ B + l.length * B := add_le_add ha hl
        _ = (a :: l).length * B := by push_cast [List.length_cons]; ring

/-- A pointwise property of the combining function holds of every entry of a
zipWith. -/
theorem zipWith_mem_bound {α β : Type} (f : α → β → ℝ) (P : ℝ → Prop)
    (hP : ∀ a b, P (f a b)) :
    ∀ (l1 : List α) (l2 : List β), ∀ x ∈ List.zipWith f l1 l2, P x := by
  intro l1
  induction l1 with
  | nil => intro l2 x hx; simp at hx
  | cons a l ih =>
      intro l2 x hx
      cases l2 with
      | nil => simp at hx
      | cons b l2 =>
          rw [List.zipWith_cons_cons] at hx
          rcases List.mem_cons.mp hx with hh | hh
          · subst hh; exact hP a b
          · exact ih l2 x hh

/-- The square root of 0.01 is 0.1. -/
theorem sqrt_centi : Real.sqrt 0.01 = 0.1 := by
  rw [show (0.01 : ℝ) = 0.1 ^ 2 by norm_num,
    Real.sqrt_sq (by norm_num : (0:ℝ) ≤ 0.1)]

/-- C6: for every configuration with nonnegative amplitude and every query
point and time, the field value is uniformly bounded by
numElements * amplitude * 10: in particular, at a point coincident with an
element (whose term is skipped) the result is a well-defined bounded real,
never a singular value, every remaining term using the regularized
amplitude / sqrt(dist + 0.01). -/
theorem calculateFieldAt_bounded (c : Config) (hamp : 0 ≤ c.amplitude)
    (x y t : ℝ) :
    |calculateFieldAt c x y t| ≤ (c.numElements : ℝ) * (c.amplitude * 10) := by
  have hB : (0:ℝ) ≤ c.amplitude * 10 := by positivity
  by_cases he : c.enabled = true
  · simp only [calculateFieldAt, he, if_true]
    have hterm : ∀ (p : ℝ × ℝ) (φ : ℝ),
        |(fun (p : ℝ × ℝ) (φ : ℝ) =>
          if Real.sqrt ((x - p.1) ^ 2 + (y - p.2) ^ 2) < 0.0001 then 0
          else
            c.amplitude / Real.sqrt (Real.sqrt ((x - p.1) ^ 2 + (y - p.2) ^ 2) + 0.01) *
              Real.cos (2 * π / wavelength c * Real.sqrt ((x - p.1) ^ 2 + (y - p.2) ^ 2) -
                2 * π * c.frequency * t + φ)) p φ| ≤ c.amplitude * 10 := by
      intro p φ
      dsimp only
      by_cases hd : Real.sqrt ((x - p.1) ^ 2 + (y - p.2) ^ 2) < 0.0001
      · rw [if_pos hd]
        simpa using hB
      · rw [if_neg hd]
        set dist := Real.sqrt ((x - p.1) ^ 2 + (y - p.2) ^ 2) with hdist
        have hdist0 : 0 ≤ dist := Real.sqrt_nonneg _
        have hsq : (0.1 : ℝ) ≤ Real.sqrt (dist + 0.01) := by
          have h1 : Real.sqrt 0.01 ≤ Real.sqrt (dist + 0.01) :=
            Real.sqrt_le_sqrt (by linarith)
          rwa [sqrt_centi] at h1
        have hspos : (0 : ℝ) < Real.sqrt (dist + 0.01) := by linarith
        have hcos : |Real.cos (2 * π / wavelength c * dist -
            2 * π * c.frequency * t + φ)| ≤ 1 := Real.abs_cos_le_one _
        rw [abs_mul, abs_div, abs_of_nonneg hamp,
          abs_of_nonneg (le_of_lt hspos)]
        calc c.amplitude / Real.sqrt (dist + 0.01) *
              |Real.cos (2 * π / wavelength c * dist - 2 * π * c.frequency * t + φ)|
            ≤ c.amplitude / Real.sqrt (dist + 0.01) * 1 := by
              apply mul_le_mul_of_nonneg_left hcos
              positivity
          _ = c.amplitude / Real.sqrt (dist + 0.01) := mul_one _
          _ ≤ c.amplitude * 10 := by
              rw [div_le_iff₀ hspos]
              nlinarith
    have hmem := zipWith_mem_bound _ (fun r => |r| ≤ c.amplitude * 10) hterm
      (elementPositions c) (phaseDelays c)
    have hsum := list_abs_sum_le _ _ hmem
    refine hsum.trans ?_
    rw [List.length_zipWith, elementPositions_length, phaseDelays_length, min_self]
  · have he2 : c.enabled = false := by revert he; cases c.enabled <;> simp
    simp only [calculateFieldAt, he2]
    simpa using by positivity

/-- Witness for C6: the default array has nonnegative amplitude, and at the
exact position of its first element (local x = -0.0375) the field magnitude
obeys the bound at time 0. -/
theorem calculateFieldAt_bounded_witness :
    (0 : ℝ) ≤ (mkConfig emptyRecord).amplitude
    ∧ |calculateFieldAt (mkConfig emptyRecord) (-0.0375) (-0.1) 0|
      ≤ ((mkConfig emptyRecord).numElements : ℝ) *
        ((mkConfig emptyRecord).amplitude * 10) := by
  have h0 : (0 : ℝ) ≤ (mkConfig emptyRecord).amplitude := by
    simp [mkConfig, emptyRecord, orDefault]
  exact ⟨h0, calculateFieldAt_bounded (mkConfig emptyRecord) h0 (-0.0375) (-0.1) 0⟩

/-- Sum of a constant map is the length times the constant. -/
theorem sum_map_const_mul {α : Type} (l : List α) (r : ℝ) :
    (l.map fun _ => r).sum = l.length * r := by
  induction l with
  | nil => simp
  | cons a l ih =>
      simp only [List.map_cons, List.sum_cons, ih, List.length_cons]
      push_cast
      ring

/-- Pairing each far-field phase with the path term of the steering angle
makes every summand the same constant: the projection cancels. -/
theorem cancel_sum (ps : List (ℝ × ℝ)) (k sθ cθ Px Py amp : ℝ) (h : ℝ → ℝ) :
    (List.zipWith
      (fun (p : ℝ × ℝ) (φ : ℝ) => amp * h (k * (p.1 * sθ + p.2 * cθ) + φ)) ps
      (ps.map fun e => 0 - k * ((e.1 - Px) * sθ + (e.2 - Py) * cθ))).sum
      = ps.length * (amp * h (k * (Px * sθ + Py * cθ))) := by
  rw [List.zipWith_map_right, List.zipWith_same]
  have hmap : (ps.map fun e =>
        amp * h (k * (e.1 * sθ + e.2 * cθ) +
          (0 - k * ((e.1 - Px) * sθ + (e.2 - Py) * cθ))))
      = ps.map fun _ => amp * h (k * (Px * sθ + Py * cθ)) :=
    List.map_congr_left fun e _ => by
      have harg : k * (e.1 * sθ + e.2 * cθ) +
          (0 - k * ((e.1 - Px) * sθ + (e.2 - Py) * cθ))
          = k * (Px * sθ + Py * cθ) := by ring
      rw [harg]
  rw [hmap]
  exact sum_map_const_mul ps _

/-- C2: for every array with orientation 0, infinite focal distance, at least
one element and positive (uniform) amplitude, the normalized beam pattern
evaluated at the steering angle is exactly 1: the far-field phase offsets
cancel the path-length term up to a common constant. -/
theorem beamPattern_peak_at_steering (c : Config)
    (hor : c.orientation = 0) (hfd : c.focalDistance = none)
    (hn : 1 ≤ c.numElements) (hamp : 0 < c.amplitude)
    (hen : c.enabled = true) :
    calculateBeamPattern c c.steeringAngle = 1 := by
  simp only [calculateBeamPattern, phaseDelays, wavelength, hfd, hor,
    zero_mul, zero_div, add_zero]
  rw [List.map_zipWith, List.map_zipWith]
  dsimp only
  rw [cancel_sum (elementPositions c) _ _ _ _ _ _ Real.cos,
    cancel_sum (elementPositions c) _ _ _ _ _ _ Real.sin,
    elementPositions_length]
  have hpyth : Real.sin (2 * π / (c.speedOfSound / c.frequency) *
        (c.posX * Real.sin (c.steeringAngle * π / 180) +
          c.posY * Real.cos (c.steeringAngle * π / 180))) ^ 2 +
      Real.cos (2 * π / (c.speedOfSound / c.frequency) *
        (c.posX * Real.sin (c.steeringAngle * π / 180) +
          c.posY * Real.cos (c.steeringAngle * π / 180))) ^ 2 = 1 :=
    Real.sin_sq_add_cos_sq _
  have hne : (c.numElements : ℝ) ≠ 0 := Nat.cast_ne_zero.mpr (by omega)
  have hane : c.amplitude ≠ 0 := ne_of_gt hamp
  rw [div_eq_one_iff_eq (by positivity)]
  linear_combination ((c.numElements : ℝ) * (c.numElements : ℝ) *
    c.amplitude * c.amplitude) * hpyth

/-- Witness for C2: the concrete 11-element, half-wavelength-pitch array
steered to 30 degrees attains normalized intensity exactly 1 at 30 degrees. -/
theorem beamPattern_peak_at_steering_witness :
    (elevenElementConfig.orientation = 0
      ∧ elevenElementConfig.focalDistance = none
      ∧ 1 ≤ elevenElementConfig.numElements
      ∧ 0 < elevenElementConfig.amplitude
      ∧ elevenElementConfig.enabled = true)
    ∧ calculateBeamPattern elevenElementConfig 30 = 1 := by
  refine ⟨⟨rfl, rfl, by norm_num [elevenElementConfig],
    by norm_num [elevenElementConfig], rfl⟩, ?_⟩
  exact beamPattern_peak_at_steering elevenElementConfig rfl rfl
    (by norm_num [elevenElementConfig]) (by norm_num [elevenElementConfig]) rfl

/-- C1 is refuted by the code: serialization round trips do not preserve the
enabled flag or a zero amplitude.  A disabled default array yields 0 element
records, but the array rebuilt from its own serialized configuration is
enabled again and yields 16; likewise amplitude 0 deserializes to 1. -/
theorem roundtrip_loses_enabled_and_amplitude :
    (getElementData (setEnabled (mkPhasedArray emptyRecord) false)).length = 0
    ∧ (getElementData (mkPhasedArray
        (toJSON (setEnabled (mkPhasedArray emptyRecord) false).cfg))).length = 16
    ∧ (setAmplitude (mkPhasedArray emptyRecord) 0).cfg.amplitude = 0
    ∧ (mkConfig (toJSON (setAmplitude (mkPhasedArray emptyRecord) 0).cfg)).amplitude
      = 1 := by
  refine ⟨rfl, ?_, ?_, ?_⟩
  · simp [getElementData, ensureCalculated, mkPhasedArray, recalculate,
      List.length_zipWith, elementPositions_length, phaseDelays_length,
      mkConfig, toJSON, setEnabled, emptyRecord, orDefaultNat, orDefault]
  · norm_num [setAmplitude, mkPhasedArray, recalculate, mkConfig, emptyRecord,
      orDefault]
  · norm_num [mkConfig, toJSON, setAmplitude, mkPhasedArray, recalculate,
      emptyRecord, orDefault]

end PhasedArrayModel
